import Mathlib

/-!
# Verification of the `result-flow` library

A shallow embedding of the TypeScript sources `src/delay.ts` and
`src/promise-helpers.ts` (the context-aware `ResultFlow` class), together
with theorems settling the specification claims.

Modelling conventions:
* JavaScript is single threaded, so one asynchronous builder evaluation is a
  deterministic state-passing computation.  `Comp σ ε α := σ → POut ε α × σ`
  threads an explicit world state `σ` (used to record effect firings, probe
  calls, etc.) and finishes in one of three ways, mirroring how an `async`
  function's promise can settle:
  - `POut.val a` — the promise resolves with `a`;
  - `POut.intr e` — the promise rejects with `ResultInterruption` carrying
     the failure `e` (the internal Interruption Signal);
  - `POut.fault φ` — the promise rejects with any other fault (an arbitrary
     user exception, identified by a tag `φ : Nat`).
* The `neverthrow` `Result` collaborator is the two-constructor `Result`
  below; a `Promise<Result>`/`ResultAsync` is a `Comp σ ε (Result α ε)`.
* The TypeScript failure types (`E`, `E2`, unions `E | E2`) are all embedded
  into a single Lean error type `ε`; the success type changes where the
  source's does.
* `setTimeout`-based waiting (`wait` in `delay.ts`) suspends but has no
  observable effect on program state, so it is the identity computation; the
  amount waited is computed by the pure `calculateDelay`, verified separately.
-/

/-- The external `neverthrow` two-outcome result collaborator:
`Ok(value)` or `Err(error)`. -/
inductive Result (α ε : Type) where
  | ok (value : α) : Result α ε
  | err (error : ε) : Result α ε
  deriving Repr, DecidableEq

/-- `result.mapErr(mapper)` of the collaborator (used by
`PromiseHelpers.mapError`). -/
def Result.mapErr {α ε ε2 : Type} (mapper : ε → ε2) : Result α ε → Result α ε2
  | .ok a => .ok a
  | .err e => .err (mapper e)

/-- How one asynchronous computation settles: resolved value, rejection with
the internal `ResultInterruption` signal (payload: the carried failure), or
rejection with any other fault (tagged by a `Nat`). -/
inductive POut (ε α : Type) where
  | val (a : α) : POut ε α
  | intr (e : ε) : POut ε α
  | fault (φ : Nat) : POut ε α
  deriving Repr, DecidableEq

/-- A single-threaded asynchronous computation over a world state `σ`:
the body of an `async` function between its start and the settling of its
promise. -/
def Comp (σ ε α : Type) : Type := σ → POut ε α × σ

/-- Sequencing of asynchronous steps (`await` / `.then`): a rejection —
interruption or fault — skips the continuation, exactly as a rejected
promise propagates through `await`. -/
def Comp.bind {σ ε α β : Type} (p : Comp σ ε α) (k : α → Comp σ ε β) : Comp σ ε β :=
  fun s =>
    match p s with
    | (.val a, s1) => k a s1
    | (.intr e, s1) => (.intr e, s1)
    | (.fault φ, s1) => (.fault φ, s1)

/-- An immediately-resolved computation (`Promise.resolve` / plain return). -/
def Comp.pure {σ ε α : Type} (a : α) : Comp σ ε α := fun s => (.val a, s)

/-- `unwrap` (promise-helpers.ts lines 285–291): a success is unwrapped to
its value, a failure throws `ResultInterruption(result)`. -/
def unwrap {α ε : Type} : Result α ε → POut ε α
  | .ok a => .val a
  | .err e => .intr e

/-- The `tryTo` helper of `ResultFlowHelpers`: resolve the given
result-producing computation, optionally transform its error through
`options.mapError` (`PromiseHelpers.mapError` = await + `mapErr`), then
`unwrap` — returning the success value or rejecting with the Interruption
Signal carrying the (possibly transformed) failure.  A rejection of the
awaited computation itself propagates unchanged. -/
def tryTo {σ ε α : Type} (result : Comp σ ε (Result α ε)) (mapError : Option (ε → ε)) :
    Comp σ ε α :=
  fun s =>
    match result s with
    | (.val r, s1) =>
        (unwrap (match mapError with
          | some mapper => r.mapErr mapper
          | none => r), s1)
    | (.intr e, s1) => (.intr e, s1)
    | (.fault φ, s1) => (.fault φ, s1)

/-- The `fail` helper of `ResultFlowHelpers`: unconditionally throw
`ResultInterruption(err(error))`; never returns. -/
def fail {σ ε α : Type} (error : ε) : Comp σ ε α := fun s => (.intr error, s)

/-! ## delay.ts -/

/-- `DelayStrategy` (delay.ts lines 1–3). -/
inductive DelayStrategy where
  | immediate : DelayStrategy
  | exponentialBackoff (baseDelayMs : Nat) (maxDelayMs : Option Nat) : DelayStrategy
  deriving Repr, DecidableEq

/-- `calculateExponentialDelay` (delay.ts lines 21–28).  The source computes
`baseDelay * 2 ** (attempt - 1)` and returns `maxDelay ? min(delay, maxDelay)
: delay`; JavaScript truthiness makes a present-but-zero `maxDelay` take the
uncapped branch. -/
def calculateExponentialDelay (attempt : Nat) (baseDelay : Nat) (maxDelay : Option Nat) :
    Nat :=
  let delay := baseDelay * 2 ^ (attempt - 1)
  match maxDelay with
  | some m => if m = 0 then delay else min delay m
  | none => delay

/-- `calculateDelay` (delay.ts lines 5–19). -/
def calculateDelay (retryStrategy : DelayStrategy) (attempt : Nat) : Nat :=
  match retryStrategy with
  | .immediate => 0
  | .exponentialBackoff base max => calculateExponentialDelay attempt base max

/-- `wait` (delay.ts lines 30–32): a `setTimeout`-backed pause.  It always
resolves and touches no program state, so in this embedding it is the
identity computation (the waited duration is the pure `calculateDelay`). -/
def wait {σ ε : Type} (ms : Nat) : Comp σ ε Unit := fun s => (.val (), s)

/-! ## The ResultFlow class (promise-helpers.ts lines 298–524)

A flow value holds the builder captured at construction (`runPromise`),
taking the helpers (here: the ambient `tryTo`/`fail` operations) and the
`{context}` extras.  The class's only mutable instance field,
`this.context`, does not influence `run`'s behaviour (the builder receives
the context as an argument); it is modelled explicitly in the `FlowObj`
world model further below, where `runPeriodically`'s reads of it matter. -/
structure ResultFlow (σ ε α C : Type) where
  runPromise : C → Comp σ ε α

/-- `ResultFlow.of`: wrap a builder function; nothing executes at
construction time. -/
def ResultFlow.of {σ ε α C : Type} (builderFunction : C → Comp σ ε α) :
    ResultFlow σ ε α C :=
  ⟨builderFunction⟩

/-- `run` (lines 356–371): execute the builder with the given context; a
normal return resolves to `ok`, a `ResultInterruption` is caught and
converted back to the carried failure, any other fault is rethrown (the
returned promise rejects). -/
def ResultFlow.run {σ ε α C : Type} (self : ResultFlow σ ε α C) (context : C) :
    Comp σ ε (Result α ε) :=
  fun s =>
    match self.runPromise context s with
    | (.val a, s1) => (.val (.ok a), s1)
    | (.intr e, s1) => (.val (.err e), s1)
    | (.fault φ, s1) => (.fault φ, s1)

/-- The input accepted by `from`/`lift`: a `Result`, an async `Result`
(`Promise<Result>` / `ResultAsync`, both a `Comp` here, with a bare
`Result` as the already-resolved case), or a zero-argument thunk returning
either. -/
inductive FromInput (σ ε α : Type) where
  | prom (p : Comp σ ε (Result α ε)) : FromInput σ ε α
  | thunk (t : Unit → Comp σ ε (Result α ε)) : FromInput σ ε α

/-- `from` (lines 330–342): a flow whose builder does
`typeof value === 'function' ? tryTo(value()) : tryTo(value)` — the thunk,
if given, is invoked at evaluation time. -/
def ResultFlow.«from» {σ ε α C : Type} (value : FromInput σ ε α) : ResultFlow σ ε α C :=
  ResultFlow.of fun _ =>
    match value with
    | .prom p => tryTo p none
    | .thunk t => tryTo (t ()) none

/-- `lift` (lines 344–354): defined as `ResultFlow.from(value)`. -/
def ResultFlow.lift {σ ε α C : Type} (value : FromInput σ ε α) : ResultFlow σ ε α C :=
  ResultFlow.«from» value

/-- `PolymorphicResult` (line 293): a value accepted by `chain`, `orElse`
and `recoveryAction` — either a `ResultFlow` (recognised in the source by
the `isResultFlow` instance test) or a bare / asynchronous `Result`. -/
inductive PolymorphicResult (σ ε α C : Type) where
  | flow (g : ResultFlow σ ε α C) : PolymorphicResult σ ε α C
  | prom (p : Comp σ ε (Result α ε)) : PolymorphicResult σ ε α C

/-- `map` (lines 373–378): `tryTo(this.run(extras))`, then apply `f` to the
unwrapped value (with the extras). -/
def ResultFlow.map {σ ε α α2 C : Type} (self : ResultFlow σ ε α C) (f : α → C → α2) :
    ResultFlow σ ε α2 C :=
  ResultFlow.of fun context =>
    Comp.bind (tryTo (self.run context) none) fun value =>
      Comp.pure (f value context)

/-- `mapError` (lines 380–388): await `this.run(extras)`; on a failure,
`fail(f(error, extras))`; otherwise return the success value. -/
def ResultFlow.mapError {σ ε α C : Type} (self : ResultFlow σ ε α C) (f : ε → C → ε) :
    ResultFlow σ ε α C :=
  ResultFlow.of fun context =>
    Comp.bind (self.run context) fun result =>
      match result with
      | .err e => fail (f e context)
      | .ok a => Comp.pure a

/-- `chain` (lines 390–398): `tryTo(this.run(extras))`, apply `f`, then
`isResultFlow(fResult) ? tryTo(fResult.run(extras)) : tryTo(fResult)`. -/
def ResultFlow.chain {σ ε α α2 C : Type} (self : ResultFlow σ ε α C)
    (f : α → C → PolymorphicResult σ ε α2 C) : ResultFlow σ ε α2 C :=
  ResultFlow.of fun context =>
    Comp.bind (tryTo (self.run context) none) fun result =>
      match f result context with
      | .flow g => tryTo (g.run context) none
      | .prom p => tryTo p none

/-- `ifSuccess` (lines 400–406): `tryTo(this.run({context}))`, invoke the
side-effecting callback `f(result, {context})`, then return the original
value unchanged. -/
def ResultFlow.ifSuccess {σ ε α C : Type} (self : ResultFlow σ ε α C)
    (f : α → C → Comp σ ε Unit) : ResultFlow σ ε α C :=
  ResultFlow.of fun context =>
    Comp.bind (tryTo (self.run context) none) fun result =>
      Comp.bind (f result context) fun _ =>
        Comp.pure result

/-- `ifFailure` (lines 408–417): await `this.run(extras)`; on a failure,
invoke the callback `f(error, extras)` then `fail(error)` with the same
error; otherwise return the success value. -/
def ResultFlow.ifFailure {σ ε α C : Type} (self : ResultFlow σ ε α C)
    (f : ε → C → Comp σ ε Unit) : ResultFlow σ ε α C :=
  ResultFlow.of fun context =>
    Comp.bind (self.run context) fun result =>
      match result with
      | .err e => Comp.bind (f e context) fun _ => fail e
      | .ok a => Comp.pure a

/-- `orElse` (lines 419–433): await `this.run(extras)`; a success is kept;
on a failure the alternative is evaluated, a `ResultFlow` via
`tryTo(alternative.run(extras))` and a bare / async `Result` via `tryTo`. -/
def ResultFlow.orElse {σ ε α C : Type} (self : ResultFlow σ ε α C)
    (alternative : ε → C → PolymorphicResult σ ε α C) : ResultFlow σ ε α C :=
  ResultFlow.of fun context =>
    Comp.bind (self.run context) fun result =>
      match result with
      | .ok a => Comp.pure a
      | .err e =>
        match alternative e context with
        | .flow g => tryTo (g.run context) none
        | .prom p => tryTo p none

/-- The body of `retryPolicy`'s builder (lines 446–467): the
`for (let i = 0; i < maxRetries; i++)` loop, structurally recursive on the
remaining iteration count (`fuel`), with `i` the current loop index.  Each
iteration awaits `this.run(extras)`; a success returns its value; a failure
accepted by `condition` invokes `beforeRetry(error, i + 1)` if configured,
waits `calculateDelay(retryStrategy, i + 1)` when positive and continues;
a rejected failure does `return fail(result.error)`.  When the loop ends,
`return tryTo(this.run(extras))`. -/
def retryGo {σ ε α : Type} (runSelf : Comp σ ε (Result α ε)) (condition : ε → Bool)
    (beforeRetry : Option (ε → Nat → Comp σ ε Unit)) (retryStrategy : DelayStrategy) :
    Nat → Nat → Comp σ ε α
  | 0, _ => tryTo runSelf none
  | fuel + 1, i =>
    Comp.bind runSelf fun result =>
      match result with
      | .err e =>
        if condition e then
          Comp.bind
            (match beforeRetry with
             | some br => br e (i + 1)
             | none => Comp.pure ()) fun _ =>
          Comp.bind
            (if calculateDelay retryStrategy (i + 1) > 0 then
               wait (calculateDelay retryStrategy (i + 1))
             else Comp.pure ()) fun _ =>
          retryGo runSelf condition beforeRetry retryStrategy fuel (i + 1)
        else fail e
      | .ok a => Comp.pure a

/-- `retryPolicy` (lines 435–468).  The source defaults are
`condition = () => true`, `maxRetries = 1`,
`retryStrategy = { type: "immediate" }`; here they are passed explicitly.
`maxRetries` is an arbitrary integer; the loop executes
`max maxRetries 0` iterations. -/
def ResultFlow.retryPolicy {σ ε α C : Type} (self : ResultFlow σ ε α C)
    (condition : ε → Bool) (beforeRetry : Option (ε → Nat → Comp σ ε Unit))
    (maxRetries : Int) (retryStrategy : DelayStrategy) : ResultFlow σ ε α C :=
  ResultFlow.of fun context =>
    retryGo (self.run context) condition beforeRetry retryStrategy maxRetries.toNat 0

/-! ## runPeriodically (lines 470–508)

A session is modelled by the state of its `setInterval` timer, the log of
`onInterruption` invocations (the callback is modelled as the canonical
recorder, which is exactly the call-count probe the spec's testable
properties describe), and the world state threaded through receiver and
recovery evaluations.  The receiver enters the model through its `run`
(the tick body only ever calls `this.run`), and a `PolymorphicResult`
recovery enters through the asynchronous `Result` computation it is
normalised to in the source (`isResultFlow(x) ? x.run(...) : x`). -/

/-- The argument of one `onInterruption` invocation. -/
inductive InterruptionParam (ε ε2 : Type) where
  | failure (error : ε) (recoveryError : Option ε2) : InterruptionParam ε ε2
  | aborted : InterruptionParam ε ε2
  deriving Repr, DecidableEq

/-- The state of one periodic session: whether the interval timer is still
armed, the `onInterruption` invocations so far (in order), and the world
state. -/
structure SessionState (σ ε ε2 : Type) where
  timerActive : Bool
  interruptions : List (InterruptionParam ε ε2)
  world : σ
  deriving Repr, DecidableEq

/-- The body of the `setInterval` callback (lines 481–500): await
`this.run(...)`; on a success do nothing; on a failure evaluate the
recovery action if configured; if there is no recovery or the recovery
fails, `clearInterval` and invoke `onInterruption({cause: 'failure', error,
recoveryError})`.  A rejection (interruption-signal or fault) of the
receiver's or the recovery's promise rejects the callback's own promise,
which `setInterval` ignores: the timer stays armed and `onInterruption` is
not invoked. -/
def tickBody {σ ε ε2 α υ : Type} (runSelf : Comp σ ε (Result α ε))
    (recoveryAction : Option (ε → Comp σ ε2 (Result υ ε2)))
    (st : SessionState σ ε ε2) : SessionState σ ε ε2 :=
  match runSelf st.world with
  | (.val (.ok _), w1) => { st with world := w1 }
  | (.val (.err e), w1) =>
    match recoveryAction with
    | none =>
      { timerActive := false
        interruptions := st.interruptions ++ [.failure e none]
        world := w1 }
    | some ra =>
      match ra e w1 with
      | (.val (.ok _), w2) => { st with world := w2 }
      | (.val (.err e2), w2) =>
        { timerActive := false
          interruptions := st.interruptions ++ [.failure e (some e2)]
          world := w2 }
      | (.intr _, w2) => { st with world := w2 }
      | (.fault _, w2) => { st with world := w2 }
  | (.intr _, w1) => { st with world := w1 }
  | (.fault _, w1) => { st with world := w1 }

/-- The interval timer: a tick fires the callback only while the timer is
armed; after `clearInterval` nothing fires.  `runTicks step n` lets `n`
interval periods elapse. -/
def runTicks {σ ε ε2 : Type} (step : SessionState σ ε ε2 → SessionState σ ε ε2) :
    Nat → SessionState σ ε ε2 → SessionState σ ε ε2
  | 0, st => st
  | n + 1, st => runTicks step n (if st.timerActive then step st else st)

/-- The `interrupt` closure returned by `runPeriodically` (lines 502–507):
`clearInterval(intervalId)` (idempotent at the timer level) followed
unconditionally by `onInterruption({cause: 'aborted'})`. -/
def interrupt {σ ε ε2 : Type} (st : SessionState σ ε ε2) : SessionState σ ε ε2 :=
  { timerActive := false
    interruptions := st.interruptions ++ [.aborted]
    world := st.world }

/-! ## The mutable `context` instance field

`ResultFlow`  declares `private context!: C`, written by every `run` call
(`this.context = context`, line 363) and read by `runPeriodically`'s tick
(`this.run({context: this.context})`, line 482).  `FlowObj`/`ObjState`
model exactly this mutable part: the flow object's builder together with
the current value of its `context` field. -/

/-- A flow object together with the world its mutable field lives in. -/
structure FlowObj (σ ε α C : Type) where
  builder : C → Comp σ ε α

/-- The mutable state surrounding a flow object: its `context` instance
field and the world state. -/
structure ObjState (σ C : Type) where
  contextField : C
  world : σ

/-- `run` on the object model (lines 356–371, including line 363's
`this.context = context`): store the argument context into the instance
field, then evaluate the builder with that context, catching the
Interruption Signal. -/
def runMut {σ ε α C : Type} (self : FlowObj σ ε α C) (context : C) (st : ObjState σ C) :
    POut ε (Result α ε) × ObjState σ C :=
  match self.builder context st.world with
  | (.val a, w1) => (.val (.ok a), { contextField := context, world := w1 })
  | (.intr e, w1) => (.val (.err e), { contextField := context, world := w1 })
  | (.fault φ, w1) => (.fault φ, { contextField := context, world := w1 })

/-- One periodic tick's receiver evaluation on the object model (line 482):
`this.run({context: this.context})` — the context is read from the mutable
instance field at tick time. -/
def periodicTickMut {σ ε α C : Type} (self : FlowObj σ ε α C) (st : ObjState σ C) :
    POut ε (Result α ε) × ObjState σ C :=
  runMut self st.contextField st

/-! ## Claims -/

/-- C6, counterexample.  The claim states
`calculateDelay(ExponentialBackoff(base, max), n) = min(base * 2^(n-1), max)`
whenever `max` is present, *including `max = 0`*.  At
`base = 1`, `max = 0`, `n = 1` the code returns `1` (JavaScript truthiness:
a zero `maxDelay` takes the uncapped branch), while
`min(1 * 2^0, 0) = 0`. -/
theorem C6_delay_counterexample :
    calculateDelay (DelayStrategy.exponentialBackoff 1 (some 0)) 1 = 1 ∧
    min (1 * 2 ^ (1 - 1)) 0 = 0 ∧ (1 : Nat) ≠ 0 := by
  refine ⟨rfl, rfl, ?_⟩
  decide

/-- C6, amended.  For every 1-based attempt `n`:
`calculateDelay(Immediate, n) = 0`;
`calculateDelay(ExponentialBackoff(base, max), n) = min(base * 2^(n-1), max)`
when `max` is present and nonzero, and `base * 2^(n-1)` when `max` is
absent or `max = 0` (a zero cap is ignored by the code's truthiness test);
the result is never negative (delays are naturals) and is monotonically
non-decreasing in `n` until the cap, constant (equal to `max`) once
`base * 2^(n-1)` reaches a nonzero cap. -/
theorem C6_delay_amended :
    (∀ n : Nat, calculateDelay DelayStrategy.immediate n = 0) ∧
    (∀ base m n : Nat, m ≠ 0 →
      calculateDelay (DelayStrategy.exponentialBackoff base (some m)) n
        = min (base * 2 ^ (n - 1)) m) ∧
    (∀ base n : Nat,
      calculateDelay (DelayStrategy.exponentialBackoff base none) n
        = base * 2 ^ (n - 1)) ∧
    (∀ base n : Nat,
      calculateDelay (DelayStrategy.exponentialBackoff base (some 0)) n
        = base * 2 ^ (n - 1)) ∧
    (∀ (strat : DelayStrategy) (n : Nat),
      calculateDelay strat n ≤ calculateDelay strat (n + 1)) ∧
    (∀ base m n : Nat, m ≠ 0 → m ≤ base * 2 ^ (n - 1) →
      calculateDelay (DelayStrategy.exponentialBackoff base (some m)) n = m) ∧
    (∀ (strat : DelayStrategy) (n : Nat), 0 ≤ calculateDelay strat n) := by
  have hpow : ∀ base n : Nat, base * 2 ^ (n - 1) ≤ base * 2 ^ (n + 1 - 1) := by
    intro base n
    exact Nat.mul_le_mul_left base (Nat.pow_le_pow_right (by decide) (by omega))
  refine ⟨fun n => rfl, ?_, fun base n => rfl, ?_, ?_, ?_, fun strat n => Nat.zero_le _⟩
  · intro base m n hm
    simp [calculateDelay, calculateExponentialDelay, hm]
  · intro base n
    simp [calculateDelay, calculateExponentialDelay]
  · intro strat n
    match strat with
    | .immediate => exact Nat.le_refl 0
    | .exponentialBackoff base none =>
      simpa [calculateDelay, calculateExponentialDelay] using hpow base n
    | .exponentialBackoff base (some m) =>
      rcases Nat.eq_zero_or_pos m with hm | hm
      · subst hm
        simpa [calculateDelay, calculateExponentialDelay] using hpow base n
      · have hm' : m ≠ 0 := Nat.pos_iff_ne_zero.mp hm
        simp only [calculateDelay, calculateExponentialDelay, hm', if_neg]
        exact min_le_min (hpow base n) (Nat.le_refl m)
  · intro base m n hm hle
    simp [calculateDelay, calculateExponentialDelay, hm, Nat.min_eq_right hle]

/-- C6, witness for the amended theorem: at `base = 3`, `max = 4`, `n = 2`
the capped branch applies and the cap is reached at `n = 2`. -/
theorem C6_delay_amended_witness :
    calculateDelay (DelayStrategy.exponentialBackoff 3 (some 4)) 2
      = min (3 * 2 ^ (2 - 1)) 4 ∧
    calculateDelay (DelayStrategy.exponentialBackoff 3 (some 4)) 2 = 4 :=
  ⟨C6_delay_amended.2.1 3 4 2 (by decide),
   C6_delay_amended.2.2.2.2.2.1 3 4 2 (by decide) (by decide)⟩

/-- C10: `lift` delegates to `from` (lines 344–354: `return
ResultFlow.from(value)`), so for every accepted input — a `Result`, an
asynchronous `Result`, or a thunk returning either — the two flows have the
same builder, hence every evaluation yields the same outcome with the same
effects (identical world-state transition). -/
theorem C10_lift_eq_from :
    ∀ (σ ε α C : Type) (value : FromInput σ ε α) (context : C) (s : σ),
      ((ResultFlow.lift value : ResultFlow σ ε α C)).runPromise context s
        = ((ResultFlow.«from» value : ResultFlow σ ε α C)).runPromise context s ∧
      ((ResultFlow.lift value : ResultFlow σ ε α C)).run context s
        = ((ResultFlow.«from» value : ResultFlow σ ε α C)).run context s := by
  intro σ ε α C value context s
  exact ⟨rfl, rfl⟩

/-- C1: the Interruption Signal.  In any builder, once `tryTo` is applied
to a failing result (with or without `options.mapError`) or `fail(e)` is
called, the rest of the builder — an arbitrary continuation `k` — never
executes: the computation rejects with the Interruption Signal carrying the
(possibly transformed) error, and the result (outcome and world state) is
independent of `k`.  `run` converts exactly that signal into a resolved
`Failure(error)`; a builder that rejects with any other fault makes `run`'s
promise reject with that same fault instead of resolving to a failure. -/
theorem C1_interruption_signal :
    ∀ (σ ε α β C : Type) (e : ε) (mapper : ε → ε) (s : σ),
      (∀ k : α → Comp σ ε β,
        Comp.bind (tryTo (Comp.pure (Result.err e)) (some mapper)) k s
          = (POut.intr (mapper e), s)) ∧
      (∀ k : α → Comp σ ε β,
        Comp.bind (tryTo (Comp.pure (Result.err e)) none) k s = (POut.intr e, s)) ∧
      (∀ k : α → Comp σ ε β, Comp.bind (fail e) k s = (POut.intr e, s)) ∧
      (∀ (b : C → Comp σ ε α) (context : C) (s1 : σ),
        b context s = (POut.intr e, s1) →
        (ResultFlow.of b).run context s = (POut.val (Result.err e), s1)) ∧
      (∀ (b : C → Comp σ ε α) (context : C) (φ : Nat) (s1 : σ),
        b context s = (POut.fault φ, s1) →
        (ResultFlow.of b).run context s = (POut.fault φ, s1)) := by
  intro σ ε α β C e mapper s
  refine ⟨fun k => rfl, fun k => rfl, fun k => rfl, ?_, ?_⟩
  · intro b context s1 h
    simp [ResultFlow.run, ResultFlow.of, h]
  · intro b context φ s1 h
    simp [ResultFlow.run, ResultFlow.of, h]

/-- C1, witness: at concrete inputs — error `2`, mapper `+10`, a builder
that raises the signal, and a builder that faults with tag `3` — the parts
of `C1_interruption_signal` evaluate as stated. -/
theorem C1_interruption_signal_witness :
    (Comp.bind (tryTo (Comp.pure (Result.err 2)) (some (fun e => e + 10)))
        (fun v : Nat => Comp.pure (v + 1)) 0 = ((POut.intr 12 : POut Nat Nat), 0)) ∧
    ((ResultFlow.of (fun _ : Unit => (fail 2 : Comp Nat Nat Nat))).run () 0
        = (POut.val (Result.err 2), 0)) ∧
    ((ResultFlow.of (fun _ : Unit => ((fun s => (POut.fault 3, s)) : Comp Nat Nat Nat))).run () 0
        = (POut.fault 3, 0)) := by
  have h := C1_interruption_signal Nat Nat Nat Nat Unit 2 (fun e => e + 10) 0
  exact ⟨h.1 (fun v => Comp.pure (v + 1)),
         h.2.2.2.1 (fun _ => fail 2) () 0 rfl,
         h.2.2.2.2 (fun _ => fun s => (POut.fault 3, s)) () 3 0 rfl⟩

/-- C4: short-circuit of `map`, `chain`, `ifSuccess`.  For a flow whose
evaluation fails with error `e` (its builder rejects with the Interruption
Signal carrying `e`, so `run` resolves to that failure), `map f`, `chain f`
and `ifSuccess f` each produce a flow whose evaluation fails with the same
error `e` — and the entire result (outcome and final world state) is
independent of the universally quantified `f`, which is therefore never
invoked. -/
theorem C4_failure_short_circuit :
    ∀ (σ ε α α2 C : Type) (self : ResultFlow σ ε α C) (context : C) (s s1 : σ) (e : ε),
      self.runPromise context s = (POut.intr e, s1) →
      (∀ f : α → C → α2,
        (self.map f).run context s = (POut.val (Result.err e), s1)) ∧
      (∀ f : α → C → PolymorphicResult σ ε α2 C,
        (self.chain f).run context s = (POut.val (Result.err e), s1)) ∧
      (∀ f : α → C → Comp σ ε Unit,
        (self.ifSuccess f).run context s = (POut.val (Result.err e), s1)) := by
  intro σ ε α α2 C self context s s1 e h
  refine ⟨?_, ?_, ?_⟩
  · intro f
    simp [ResultFlow.map, ResultFlow.run, ResultFlow.of, Comp.bind, tryTo, unwrap, h]
  · intro f
    simp [ResultFlow.chain, ResultFlow.run, ResultFlow.of, Comp.bind, tryTo, unwrap, h]
  · intro f
    simp [ResultFlow.ifSuccess, ResultFlow.run, ResultFlow.of, Comp.bind, tryTo, unwrap, h]

/-- C4, witness: a flow that fails with error `5` at state `0`;
`map (+1)`, `chain` into a pure success, and an `ifSuccess` probe all fail
with error `5` without touching the state. -/
theorem C4_failure_short_circuit_witness :
    (((ResultFlow.of (fun _ : Unit => (fail 5 : Comp Nat Nat Nat))).map
        (fun v _ => v + 1)).run () 0 = (POut.val (Result.err 5), 0)) ∧
    (((ResultFlow.of (fun _ : Unit => (fail 5 : Comp Nat Nat Nat))).chain
        (fun v _ => PolymorphicResult.prom (Comp.pure (Result.ok (v + 1))))).run () 0
      = (POut.val (Result.err 5), 0)) ∧
    (((ResultFlow.of (fun _ : Unit => (fail 5 : Comp Nat Nat Nat))).ifSuccess
        (fun _ _ => fun s => (POut.val (), s + 1))).run () 0
      = (POut.val (Result.err 5), 0)) := by
  have h := C4_failure_short_circuit Nat Nat Nat Nat Unit
    (ResultFlow.of (fun _ : Unit => (fail 5 : Comp Nat Nat Nat))) () 0 0 5 rfl
  exact ⟨h.1 (fun v _ => v + 1),
         h.2.1 (fun v _ => PolymorphicResult.prom (Comp.pure (Result.ok (v + 1)))),
         h.2.2 (fun _ _ => fun s => (POut.val (), s + 1))⟩

/-- An instrumented flow over the counter world `Nat`: each evaluation of
its builder fires the underlying effect exactly once (increments the
counter) and then settles with the fixed outcome `o`. -/
def tickFlow {ε α C : Type} (o : POut ε α) : ResultFlow Nat ε α C :=
  ResultFlow.of fun _ => fun s => (o, s + 1)

/-- A succeeding instrumented receiver makes `retryGo` stop at the first
attempt for any loop configuration: exactly one effect firing. -/
theorem retryGo_tick_success {ε α C : Type} (a : α) (context : C)
    (condition : ε → Bool) (beforeRetry : Option (ε → Nat → Comp Nat ε Unit))
    (strat : DelayStrategy) :
    ∀ (fuel i s : Nat),
      retryGo ((tickFlow (POut.val a) : ResultFlow Nat ε α C).run context)
        condition beforeRetry strat fuel i s = (POut.val a, s + 1) := by
  intro fuel i s
  cases fuel with
  | zero =>
    simp [retryGo, tryTo, ResultFlow.run, tickFlow, ResultFlow.of, unwrap]
  | succ n =>
    simp [retryGo, Comp.bind, ResultFlow.run, tickFlow, ResultFlow.of, Comp.pure]

/-- C2: immutability of flows under combinators.  With the receiver
instrumented to count its effect firings (`tickFlow`), for every counter
state `s`: the receiver itself evaluates to the same outcome with exactly
one firing at any time — in particular its observable behaviour is
identical before and after constructing any derived flow (construction is
pure: `ResultFlow.of` merely stores the builder), and it stays
independently evaluable any number of times; one evaluation of each derived
flow — `map`, `mapError`, `chain`, `ifSuccess`, `ifFailure`, `orElse`,
`retryPolicy` — fires the receiver's effect exactly once (counter `s + 1`),
i.e. only the derived flow's own evaluation triggers the receiver.
Finally, on the object model the receiver's only mutable part (the
`context` instance field written by every `run` call) influences neither
`run`'s outcome nor its world effect, so evaluations of a derived flow
cannot alter the receiver's observable behaviour through it. -/
theorem C2_combinator_immutability :
    ∀ (ε α α2 C : Type) (a : α) (e : ε) (context : C) (s : Nat)
      (f : α → C → α2) (g : ε → C → ε)
      (p : ε → C → PolymorphicResult Nat ε α C)
      (condition : ε → Bool) (beforeRetry : Option (ε → Nat → Comp Nat ε Unit))
      (maxRetries : Int) (strat : DelayStrategy),
      ((tickFlow (POut.val a) : ResultFlow Nat ε α C).run context s
          = (POut.val (Result.ok a), s + 1)) ∧
      ((tickFlow (POut.intr e) : ResultFlow Nat ε α C).run context s
          = (POut.val (Result.err e), s + 1)) ∧
      (((tickFlow (POut.val a) : ResultFlow Nat ε α C).map f).run context s
          = (POut.val (Result.ok (f a context)), s + 1)) ∧
      (((tickFlow (POut.val a) : ResultFlow Nat ε α C).mapError g).run context s
          = (POut.val (Result.ok a), s + 1)) ∧
      (((tickFlow (POut.val a) : ResultFlow Nat ε α C).chain
          (fun v c => PolymorphicResult.prom (Comp.pure (Result.ok (f v c))))).run context s
          = (POut.val (Result.ok (f a context)), s + 1)) ∧
      (((tickFlow (POut.val a) : ResultFlow Nat ε α C).ifSuccess
          (fun _ _ => Comp.pure ())).run context s
          = (POut.val (Result.ok a), s + 1)) ∧
      (((tickFlow (POut.val a) : ResultFlow Nat ε α C).ifFailure
          (fun _ _ => Comp.pure ())).run context s
          = (POut.val (Result.ok a), s + 1)) ∧
      (((tickFlow (POut.val a) : ResultFlow Nat ε α C).orElse p).run context s
          = (POut.val (Result.ok a), s + 1)) ∧
      (((tickFlow (POut.val a) : ResultFlow Nat ε α C).retryPolicy
          condition beforeRetry maxRetries strat).run context s
          = (POut.val (Result.ok a), s + 1)) ∧
      (∀ (σ2 : Type) (fl : FlowObj σ2 ε α C) (c1 c2 : C) (st : ObjState σ2 C),
        (runMut fl c1 st).1
          = (runMut fl c1 { contextField := c2, world := st.world }).1 ∧
        (runMut fl c1 st).2.world
          = (runMut fl c1 { contextField := c2, world := st.world }).2.world) := by
  intro ε α α2 C a e context s f g p condition beforeRetry maxRetries strat
  refine ⟨rfl, rfl, rfl, rfl, rfl, rfl, rfl, rfl, ?_, ?_⟩
  · show (ResultFlow.retryPolicy _ _ _ _ _).run context s = _
    simp only [ResultFlow.retryPolicy, ResultFlow.run, ResultFlow.of]
    rw [retryGo_tick_success]
  · intro σ2 fl c1 c2 st
    simp only [runMut]
    constructor
    · cases h : fl.builder c1 st.world <;> simp
    · cases h : fl.builder c1 st.world <;> simp

/-- An instrumented always-failing receiver over the world
`Nat × List Nat` (evaluation counter, recorded `beforeRetry` retry
numbers): its `k`-th evaluation (0-based) raises the Interruption Signal
with `errf k` — so every `run` resolves to a failure — and increments the
counter. -/
def recFailFlow {ε α C : Type} (errf : Nat → ε) : ResultFlow (Nat × List Nat) ε α C :=
  ResultFlow.of fun _ => fun s => (POut.intr (errf s.1), (s.1 + 1, s.2))

/-- The canonical recording `beforeRetry` callback: appends the retry
number it is invoked with to the log (the call-count probe of the spec's
testable properties). -/
def brRec {ε : Type} : ε → Nat → Comp (Nat × List Nat) ε Unit :=
  fun _ n => fun s => (POut.val (), (s.1, s.2 ++ [n]))

/-- With an always-failing receiver accepted by the retry condition, the
loop of `retryPolicy` consumes all its fuel: starting at loop index `i`
and world `(k, l)`, it performs `fuel` retried evaluations recording retry
numbers `i+1 .. i+fuel`, then the final `tryTo(this.run(extras))` performs
one more evaluation whose failure becomes the result. -/
theorem retryGo_always_fail {ε α C : Type} (errf : Nat → ε) (condition : ε → Bool)
    (hc : ∀ j, condition (errf j) = true) (context : C) :
    ∀ (fuel i k : Nat) (l : List Nat),
      retryGo ((recFailFlow errf : ResultFlow (Nat × List Nat) ε α C).run context)
          condition (some brRec) DelayStrategy.immediate fuel i (k, l)
        = (POut.intr (errf (k + fuel)), (k + fuel + 1, l ++ List.range' (i + 1) fuel)) := by
  intro fuel
  induction fuel with
  | zero =>
    intro i k l
    simp [retryGo, tryTo, ResultFlow.run, recFailFlow, ResultFlow.of, unwrap]
  | succ n ih =>
    intro i k l
    have hstep : (recFailFlow errf : ResultFlow (Nat × List Nat) ε α C).run context (k, l)
        = (POut.val (Result.err (errf k)), (k + 1, l)) := rfl
    have harith : k + 1 + n = k + (n + 1) := by omega
    simp [retryGo, Comp.bind, hstep, hc, brRec, calculateDelay, Comp.pure]
    rw [ih (i + 1) (k + 1) (l ++ [i + 1]), List.range'_succ, harith]
    simp

/-- C3: retry bounds.  For a flow whose every evaluation fails (errors
`errf 0`, `errf 1`, …) with a retry condition accepting every such error:
with `maxRetries = n > 0`, one run of the retried flow evaluates the
receiver exactly `n + 1` times (counter `0 ↦ n + 1`), invokes `beforeRetry`
exactly `n` times with retry numbers `1..n` in that order
(`List.range' 1 n`), and resolves to the last attempt's failure
(`errf n`, the `(n+1)`-th evaluation, 0-based index `n`); with
`maxRetries ≤ 0`, the receiver is evaluated exactly once and `beforeRetry`
is never invoked. -/
theorem C3_retry_bounds :
    ∀ (ε α C : Type) (errf : Nat → ε) (condition : ε → Bool) (context : C),
      (∀ j, condition (errf j) = true) →
      (∀ n : Nat, 0 < n →
        ((recFailFlow errf : ResultFlow (Nat × List Nat) ε α C).retryPolicy
            condition (some brRec) (n : Int) DelayStrategy.immediate).run context (0, [])
          = (POut.val (Result.err (errf n)), (n + 1, List.range' 1 n))) ∧
      (∀ m : Int, m ≤ 0 →
        ((recFailFlow errf : ResultFlow (Nat × List Nat) ε α C).retryPolicy
            condition (some brRec) m DelayStrategy.immediate).run context (0, [])
          = (POut.val (Result.err (errf 0)), (1, []))) := by
  intro ε α C errf condition context hc
  constructor
  · intro n _hn
    have hloop := @retryGo_always_fail ε α C errf condition hc context n 0 0 []
    simp only [ResultFlow.retryPolicy, ResultFlow.run, ResultFlow.of, Int.toNat_natCast]
    rw [hloop]
    simp
  · intro m hm
    have hloop := @retryGo_always_fail ε α C errf condition hc context 0 0 0 []
    simp only [ResultFlow.retryPolicy, ResultFlow.run, ResultFlow.of,
      Int.toNat_of_nonpos hm]
    rw [hloop]
    simp

/-- C3, witness: errors `0, 1, 2, …`, always-true condition, `maxRetries`
of `2` and `-1`: three (resp. one) evaluations, `beforeRetry` at `1, 2`
(resp. never), final outcome the last failure. -/
theorem C3_retry_bounds_witness :
    (((recFailFlow (fun k => k) : ResultFlow (Nat × List Nat) Nat Nat Unit).retryPolicy
        (fun _ => true) (some brRec) (2 : Int) DelayStrategy.immediate).run () (0, [])
      = (POut.val (Result.err 2), (3, [1, 2]))) ∧
    (((recFailFlow (fun k => k) : ResultFlow (Nat × List Nat) Nat Nat Unit).retryPolicy
        (fun _ => true) (some brRec) (-1 : Int) DelayStrategy.immediate).run () (0, [])
      = (POut.val (Result.err 0), (1, []))) := by
  have h := C3_retry_bounds Nat Nat Unit (fun k => k) (fun _ => true) () (fun _ => rfl)
  refine ⟨?_, ?_⟩
  · have := h.1 2 (by decide)
    simpa using this
  · exact h.2 (-1) (by decide)

/-- Inside the retry loop, the first failure whose error the condition
rejects terminates the loop at once via `return fail(result.error)`:
starting at loop index `i` and world `(k, l)`, if the condition accepts
the errors of attempts `k .. k+j-1` and rejects the error of attempt
`k+j` (with `j` strictly below the remaining fuel), the loop performs
exactly `j + 1` evaluations, records retry numbers `i+1 .. i+j` only, and
rejects with the Interruption Signal carrying attempt `k+j`'s error. -/
theorem retryGo_cond_stops {ε α C : Type} (errf : Nat → ε) (condition : ε → Bool)
    (context : C) :
    ∀ (j fuel i k : Nat) (l : List Nat), j < fuel →
      (∀ t, t < j → condition (errf (k + t)) = true) →
      condition (errf (k + j)) = false →
      retryGo ((recFailFlow errf : ResultFlow (Nat × List Nat) ε α C).run context)
          condition (some brRec) DelayStrategy.immediate fuel i (k, l)
        = (POut.intr (errf (k + j)), (k + j + 1, l ++ List.range' (i + 1) j)) := by
  intro j
  induction j with
  | zero =>
    intro fuel i k l hlt _hacc hrej
    match fuel, hlt with
    | fuel + 1, _ =>
      have hstep : (recFailFlow errf : ResultFlow (Nat × List Nat) ε α C).run context (k, l)
          = (POut.val (Result.err (errf k)), (k + 1, l)) := rfl
      simp only [Nat.add_zero] at hrej
      simp [retryGo, Comp.bind, hstep, hrej, fail]
  | succ j ih =>
    intro fuel i k l hlt hacc hrej
    match fuel, hlt with
    | fuel + 1, _ =>
      have hstep : (recFailFlow errf : ResultFlow (Nat × List Nat) ε α C).run context (k, l)
          = (POut.val (Result.err (errf k)), (k + 1, l)) := rfl
      have hacc0 : condition (errf k) = true := by
        have := hacc 0 (Nat.succ_pos j)
        simpa using this
      have harith : k + 1 + j = k + (j + 1) := by omega
      simp [retryGo, Comp.bind, hstep, hacc0, brRec, calculateDelay, Comp.pure]
      rw [ih fuel (i + 1) (k + 1) (l ++ [i + 1]) (by omega)
        (fun t ht => by
          have := hacc (t + 1) (by omega)
          simpa [Nat.add_right_comm k 1 t, Nat.add_assoc] using this)
        (by
          have h := hrej
          rw [show k + (j + 1) = k + 1 + j by omega] at h
          exact h)]
      rw [List.range'_succ, harith]
      simp

/-- C7: conditional retry stops immediately.  With `maxRetries = n` and a
receiver failing on every attempt, if the condition accepts the errors of
attempts `0 .. j-1` but rejects attempt `j`'s error (`j < n`, so retries
remain below `maxRetries`), the retried flow fails at once with that error:
the receiver is evaluated exactly `j + 1` times — no further attempts —
and `beforeRetry` records only retry numbers `1 .. j`, not one for the
rejected failure. -/
theorem C7_conditional_retry_stops :
    ∀ (ε α C : Type) (errf : Nat → ε) (condition : ε → Bool) (context : C) (n j : Nat),
      j < n →
      (∀ t, t < j → condition (errf t) = true) →
      condition (errf j) = false →
      ((recFailFlow errf : ResultFlow (Nat × List Nat) ε α C).retryPolicy
          condition (some brRec) (n : Int) DelayStrategy.immediate).run context (0, [])
        = (POut.val (Result.err (errf j)), (j + 1, List.range' 1 j)) := by
  intro ε α C errf condition context n j hlt hacc hrej
  have hloop := @retryGo_cond_stops ε α C errf condition context j n 0 0 [] hlt
    (by simpa using hacc) (by simpa using hrej)
  simp only [ResultFlow.retryPolicy, ResultFlow.run, ResultFlow.of, Int.toNat_natCast]
  rw [hloop]
  simp

/-- C7, witness: errors `0, 1, 2, …`, a condition accepting only error `0`,
`maxRetries = 3`: the second attempt's error `1` is rejected — two
evaluations, one `beforeRetry` (retry number `1`), outcome `Failure(1)`,
despite two retries remaining. -/
theorem C7_conditional_retry_stops_witness :
    ((recFailFlow (fun k => k) : ResultFlow (Nat × List Nat) Nat Nat Unit).retryPolicy
        (fun e => e == 0) (some brRec) (3 : Int) DelayStrategy.immediate).run () (0, [])
      = (POut.val (Result.err 1), (2, [1])) := by
  have h := C7_conditional_retry_stops Nat Nat Unit (fun k => k) (fun e => e == 0) () 3 1
    (by decide) (fun t ht => by interval_cases t <;> rfl) (by decide)
  simpa using h

/-- An instrumented receiver for periodic sessions over the counter world
`Nat`: its `k`-th evaluation (0-based) resolves to `resf k` and increments
the counter — this is the receiver's `run`, which a tick awaits. -/
def countingRun {ε α : Type} (resf : Nat → Result α ε) : Comp Nat ε (Result α ε) :=
  fun w => (POut.val (resf w), w + 1)

/-- C5: periodic session transitions.  Over the instrumented receiver:
(1) a successful tick leaves the session exactly as it was — timer armed,
no `onInterruption` — with the receiver evaluated once, so the next tick
evaluates it again (two consecutive successful ticks evaluate it twice);
(2) with a receiver succeeding twice then failing and no recovery, five
elapsed interval periods produce exactly three evaluations, a cancelled
timer, and exactly one `onInterruption` invocation, with
`{cause: 'failure', error, recoveryError: undefined}`;
(3) a failing tick whose recovery action succeeds leaves the timer armed
with no `onInterruption` (and the next tick evaluates the receiver again);
(4) a failing tick whose recovery action fails cancels the timer and
invokes `onInterruption` exactly once with
`{cause: 'failure', error, recoveryError: the recovery's failure}`. -/
theorem C5_periodic_sessions :
    ∀ (ε ε2 υ α : Type) (a u : α) (e : ε) (e2 : ε2) (v : υ)
      (resf : Nat → Result α ε) (st : SessionState Nat ε ε2),
      (resf st.world = Result.ok a →
        tickBody (countingRun resf) (none : Option (ε → Comp Nat ε2 (Result υ ε2))) st
          = { st with world := st.world + 1 }) ∧
      (resf st.world = Result.ok a → resf (st.world + 1) = Result.ok u →
        st.timerActive = true →
        runTicks (tickBody (countingRun resf)
            (none : Option (ε → Comp Nat ε2 (Result υ ε2)))) 2 st
          = { st with world := st.world + 2 }) ∧
      (runTicks (tickBody (countingRun (fun k => if k < 2 then Result.ok a else Result.err e))
          (none : Option (ε → Comp Nat ε2 (Result υ ε2)))) 5
          ⟨true, [], 0⟩
        = ⟨false, [InterruptionParam.failure e none], 3⟩) ∧
      (resf st.world = Result.err e →
        tickBody (countingRun resf)
            (some (fun _ => (Comp.pure (Result.ok v) : Comp Nat ε2 (Result υ ε2)))) st
          = { st with world := st.world + 1 }) ∧
      (resf st.world = Result.err e →
        tickBody (countingRun resf)
            (some (fun _ => (Comp.pure (Result.err e2) : Comp Nat ε2 (Result υ ε2)))) st
          = ⟨false, st.interruptions ++ [InterruptionParam.failure e (some e2)],
             st.world + 1⟩) := by
  intro ε ε2 υ α a u e e2 v resf st
  refine ⟨?_, ?_, ?_, ?_, ?_⟩
  · intro h
    simp [tickBody, countingRun, h]
  · intro h1 h2 hact
    simp [runTicks, hact, tickBody, countingRun, h1, h2]
  · rfl
  · intro h
    simp [tickBody, countingRun, h, Comp.pure]
  · intro h
    simp [tickBody, countingRun, h, Comp.pure]

/-- C5, witness: with a receiver succeeding (value `0`) on even counters
and failing with error `7` otherwise, at a running session with counter
`0`: the successful tick, the two-successes composition at a session whose
receiver always succeeds, the concrete three-evaluation stop, the healing
recovery, and the failing recovery, all at concrete inputs. -/
theorem C5_periodic_sessions_witness :
    (tickBody (countingRun (fun _ => Result.ok 0))
        (none : Option (Nat → Comp Nat Nat (Result Nat Nat))) ⟨true, [], 0⟩
      = ⟨true, [], 1⟩) ∧
    (runTicks (tickBody (countingRun (fun _ => (Result.ok 0 : Result Nat Nat)))
        (none : Option (Nat → Comp Nat Nat (Result Nat Nat)))) 2 ⟨true, [], 0⟩
      = ⟨true, [], 2⟩) ∧
    (runTicks (tickBody
        (countingRun (fun k => if k < 2 then (Result.ok 0 : Result Nat Nat)
          else Result.err 7))
        (none : Option (Nat → Comp Nat Nat (Result Nat Nat)))) 5 ⟨true, [], 0⟩
      = ⟨false, [InterruptionParam.failure 7 none], 3⟩) ∧
    (tickBody (countingRun (fun _ => (Result.err 7 : Result Nat Nat)))
        (some (fun _ => (Comp.pure (Result.ok 9) : Comp Nat Nat (Result Nat Nat))))
        ⟨true, [], 0⟩
      = ⟨true, [], 1⟩) ∧
    (tickBody (countingRun (fun _ => (Result.err 7 : Result Nat Nat)))
        (some (fun _ => (Comp.pure (Result.err 8) : Comp Nat Nat (Result Nat Nat))))
        ⟨true, [], 0⟩
      = ⟨false, [InterruptionParam.failure 7 (some 8)], 1⟩) := by
  have h := C5_periodic_sessions Nat Nat Nat Nat 0 0 7 8 9 (fun _ => Result.ok 0)
    ⟨true, [], 0⟩
  have h2 := C5_periodic_sessions Nat Nat Nat Nat 0 0 7 8 9 (fun _ => Result.err 7)
    ⟨true, [], 0⟩
  have h3 := C5_periodic_sessions Nat Nat Nat Nat 0 0 7 8 9
    (fun k => if k < 2 then Result.ok 0 else Result.err 7) ⟨true, [], 0⟩
  exact ⟨h.1 rfl, h.2.1 rfl rfl rfl, h3.2.2.1, h2.2.2.2.1 rfl, h2.2.2.2.2 rfl⟩

/-- C9, counterexample.  The claim states that calling `interrupt()` on a
session that already stopped due to failure does not invoke
`onInterruption` again.  Concretely: an always-failing receiver (error `7`)
with no recovery stops the session at the first tick, firing
`onInterruption({cause: 'failure', error: 7, recoveryError: undefined})`;
the `interrupt` closure then unconditionally fires
`onInterruption({cause: 'aborted'})` as well — the invocation log grows
from one entry to two, contradicting the claim. -/
theorem C9_interrupt_after_stop_counterexample :
    (runTicks (tickBody (countingRun (fun _ => (Result.err 7 : Result Nat Nat)))
        (none : Option (Nat → Comp Nat Nat (Result Nat Nat)))) 1 ⟨true, [], 0⟩
      = ⟨false, [InterruptionParam.failure 7 none], 1⟩) ∧
    (interrupt (⟨false, [InterruptionParam.failure 7 none], 1⟩ :
        SessionState Nat Nat Nat)
      = ⟨false, [InterruptionParam.failure 7 none, InterruptionParam.aborted], 1⟩) ∧
    ([InterruptionParam.failure 7 none, InterruptionParam.aborted]
      ≠ ([InterruptionParam.failure 7 none] : List (InterruptionParam Nat Nat))) := by
  refine ⟨rfl, rfl, ?_⟩
  decide

/-- C9, amended.  Once a session is terminal (timer cancelled — after a
failure stop or a previous `interrupt()`), no further ticks fire, so a
later `interrupt()` is a no-op at the timer level; however `interrupt()`
always invokes `onInterruption` once more, with `{cause: 'aborted'}`, even
after a failure stop.  What never happens is a double invocation for the
*same* transition: in the failure-then-interrupt scenario the log is
exactly one `failure` entry followed by one `aborted` entry — the failure
callback is not re-fired, and arbitrarily many further elapsed periods add
nothing. -/
theorem C9_interrupt_after_stop_amended :
    ∀ (σ ε ε2 : Type) (e : ε)
      (step : SessionState σ ε ε2 → SessionState σ ε ε2)
      (st : SessionState σ ε ε2) (n : Nat),
      (st.timerActive = false → runTicks step n st = st) ∧
      (interrupt st
        = ⟨false, st.interruptions ++ [InterruptionParam.aborted], st.world⟩) ∧
      (∀ (resf : Nat → Result Unit ε) (w : Nat),
        resf w = Result.err e →
        interrupt (runTicks (tickBody (countingRun resf)
            (none : Option (ε → Comp Nat ε2 (Result Unit ε2)))) 1 ⟨true, [], w⟩)
          = ⟨false, [InterruptionParam.failure e none, InterruptionParam.aborted],
             w + 1⟩) := by
  intro σ ε ε2 e step st n
  refine ⟨?_, rfl, ?_⟩
  · intro hin
    induction n with
    | zero => rfl
    | succ k ih =>
      simp [runTicks, hin, ih]
  · intro resf w h
    simp [runTicks, tickBody, countingRun, h, interrupt]

/-- C9, witness for the amended theorem: a stopped session (timer already
cancelled) is unchanged by three further elapsed periods, and the concrete
failure-then-interrupt log is `[failure 7, aborted]`. -/
theorem C9_interrupt_after_stop_amended_witness :
    (runTicks (fun st => st) 3
        (⟨false, [InterruptionParam.failure 7 none], 1⟩ : SessionState Nat Nat Nat)
      = ⟨false, [InterruptionParam.failure 7 none], 1⟩) ∧
    (interrupt (runTicks (tickBody (countingRun (fun _ => (Result.err 7 : Result Nat Nat)))
        (none : Option (Nat → Comp Nat Nat (Result Unit Nat)))) 1 ⟨true, [], 0⟩)
      = ⟨false, [InterruptionParam.failure 7 none, InterruptionParam.aborted], 1⟩) := by
  have h := C9_interrupt_after_stop_amended Nat Nat Nat 7 (fun st => st)
    (⟨false, [InterruptionParam.failure 7 none], 1⟩ : SessionState Nat Nat Nat) 3
  exact ⟨h.1 rfl, h.2.2 (fun _ => Result.err 7) 0 rfl⟩

/-- C8: demonstration of the divergence on the object model.  The flow's
builder returns its context as the success value.  With the mutable
`context` field holding `0` at session start, a tick evaluates the
receiver with context `0`; after a later `run({context: 5})` call on the
same flow (line 363 writes the field), the next tick — which reads
`this.context` at tick time (line 482) — evaluates the receiver with
context `5`, not with the session-start context `0` as the claim states. -/
theorem C8_periodic_context_not_captured :
    (periodicTickMut (⟨fun c => Comp.pure c⟩ : FlowObj Unit Nat Nat Nat)
        ⟨0, ()⟩).1 = POut.val (Result.ok 0) ∧
    ((runMut (⟨fun c => Comp.pure c⟩ : FlowObj Unit Nat Nat Nat) 5 ⟨0, ()⟩).2.contextField
      = 5) ∧
    (periodicTickMut (⟨fun c => Comp.pure c⟩ : FlowObj Unit Nat Nat Nat)
        ((runMut (⟨fun c => Comp.pure c⟩ : FlowObj Unit Nat Nat Nat) 5 ⟨0, ()⟩).2)).1
      = POut.val (Result.ok 5) ∧
    (POut.val (Result.ok 5) : POut Nat (Result Nat Nat)) ≠ POut.val (Result.ok 0) := by
  refine ⟨rfl, rfl, rfl, ?_⟩
  decide
